import Mathlib

/-!
The two command-line front ends of github-responder.

A shallow embedding of `cmd/github-responder` (`main.go`, `actions.go`) and
`cmd/revendor` (`main.go`, `revendor.go`).

Go strings are modelled as Lean strings.  Every separator and every literal the
commands compare against is ASCII, so cutting a string at a `/` gives the same
pieces whether it is read as bytes or as characters.

Package-level variables (`opts`, `repo`, `verbose`, `printVer`) become explicit
arguments, and a function that writes `opts` returns the new value.  What the
commands obtain from outside (the environment, the UUID generator, the random
number generator, `responder.Start`, the webhook parser) is an argument too.
-/

namespace Strings

/-- Position of the first occurrence of the character `c` in `s`
(`strings.Index(s, sep)` for a one-byte `sep`); `none` stands for `-1`. -/
def Index : List Char → Char → Option Nat
  | [], _ => none
  | x :: xs, c => if x = c then some 0 else (Index xs c).map (· + 1)

/-- Position of the last occurrence of `c` in `s`
(`strings.LastIndex(s, sep)` for a one-byte `sep`); `none` stands for `-1`. -/
def LastIndex : List Char → Char → Option Nat
  | [], _ => none
  | x :: xs, c =>
    match LastIndex xs c with
    | some i => some (i + 1)
    | none => if x = c then some 0 else none

/-- The loop of `genSplit`: `k` is the number of cuts still allowed (`n - 1 - i`
in the source).  Each round cuts `s` at the first separator; the rest of the
string becomes the last piece. -/
def splitLoop : List Char → Char → Nat → List String
  | s, _, 0 => [String.mk s]
  | s, sep, k + 1 =>
    match Index s sep with
    | none => [String.mk s]
    | some m => String.mk (s.take m) :: splitLoop (s.drop (m + 1)) sep k

/-- The function `strings.SplitN(s, sep, n)` for a one-byte separator and `n ≥ 0`:
`n = 0` gives no pieces, otherwise at most `n` pieces, the last one unsplit. -/
def SplitN (s : String) (sep : Char) (n : Nat) : List String :=
  if n = 0 then [] else splitLoop s.data sep (n - 1)

/-- Drop the trailing `/` characters of a reversed path (the first loop of `path.Base`). -/
def stripSlashes : List Char → List Char
  | [] => []
  | x :: xs => if x = '/' then stripSlashes xs else x :: xs

/-- The function `path.Base`: the last element of a slash-separated path, after
removing trailing slashes; `"."` for the empty path and `"/"` for a path of slashes. -/
def Base (p : String) : String :=
  if p = "" then "."
  else
    let q := (stripSlashes p.data.reverse).reverse
    let r := match LastIndex q '/' with
      | some i => q.drop (i + 1)
      | none => q
    if r = [] then "/" else String.mk r

/-- Lower-case hexadecimal rendering of a number (`fmt.Sprintf("%x", n)`). -/
def hex (n : Nat) : String := String.mk (Nat.toDigits 16 n)

end Strings

/-- The fields of `responder.Config` that the commands read or write. -/
structure Config where
  Owner : String
  Repo : String
  GitHubToken : String
  Events : List String
  CallbackURL : String
  HookSecret : String
  HTTPAddress : String
  TLSAddress : String
  EnableTLS : Bool
  Domain : String
  Email : String
  Accept : Bool
  CAEndpoint : String
  StoragePath : String
  deriving DecidableEq, Repr

/-- The Go zero value of `responder.Config`. -/
def Config.zero : Config :=
  { Owner := "", Repo := "", GitHubToken := "", Events := [], CallbackURL := "",
    HookSecret := "", HTTPAddress := "", TLSAddress := "", EnableTLS := false,
    Domain := "", Email := "", Accept := false, CAEndpoint := "", StoragePath := "" }

/-- Name of the environment variable holding the API token (`ghtokName`). -/
def ghtokName : String := "GITHUB_TOKEN"

/-- What a pre-run hook leaves behind: the error it returns (`none` for `nil`),
the value of `opts` at that moment, and whether verbose logging was switched on. -/
structure PreRunResult where
  err : Option String
  opts : Config
  verboseLogging : Bool
  deriving DecidableEq, Repr

namespace GithubResponder

/-- The hook `preRun` of `cmd/github-responder/main.go`.  `getenv` is `os.Getenv`,
`u` the string form of the UUID that `uuid.NewV4()` would give and `r` the value
that `rand.Int63()` would give. -/
def preRun (verbose : Bool) (repo : String) (opts : Config)
    (getenv : String → String) (u : String) (r : Nat) : PreRunResult :=
  if repo = "" then
    { err := some "must provide repo", opts := opts, verboseLogging := verbose }
  else
    let parts := Strings.SplitN repo '/' 2
    match parts with
    | [owner, name] =>
      let opts := { opts with Owner := owner, Repo := name }
      let opts :=
        if opts.CallbackURL = "" then
          let callbackURL := if opts.EnableTLS then "https://" else "http://"
          let callbackURL := callbackURL ++ opts.Domain ++ "/gh-callback/" ++ u
          { opts with CallbackURL := callbackURL }
        else opts
      let opts :=
        if opts.HookSecret = "" then { opts with HookSecret := Strings.hex r } else opts
      if opts.GitHubToken = "" then
        let token := getenv ghtokName
        if token = "" then
          { err := some ("GitHub API token missing - must set " ++ ghtokName),
            opts := opts, verboseLogging := verbose }
        else
          { err := none, opts := { opts with GitHubToken := token }, verboseLogging := verbose }
      else
        { err := none, opts := opts, verboseLogging := verbose }
    | _ =>
      { err := some ("invalid repo " ++ repo ++ " - need 'owner/repo' form"),
        opts := opts, verboseLogging := verbose }

/-- The options `preRun` holds once the repo is cut into `owner` and `name` and
the callback URL and hook secret are filled in. -/
def filled (opts : Config) (owner name u : String) (r : Nat) : Config :=
  let opts := { opts with Owner := owner, Repo := name }
  let opts :=
    if opts.CallbackURL = "" then
      { opts with CallbackURL :=
          (if opts.EnableTLS then "https://" else "http://") ++ opts.Domain ++
            "/gh-callback/" ++ u }
    else opts
  if opts.HookSecret = "" then { opts with HookSecret := Strings.hex r } else opts

/-- The value of `opts` that `initFlags` gives when the command line sets no flag;
`ca` is the constant `autotls.LetsEncryptProductionURL`. -/
def initFlags (ca : String) : Config :=
  { Config.zero with
    CallbackURL := "", Events := ["*"], HTTPAddress := ":80", TLSAddress := ":443",
    EnableTLS := true, Domain := "", Email := "", Accept := false, CAEndpoint := ca,
    StoragePath := "" }

end GithubResponder

namespace Revendor

/-- The value of `opts` that `initFlags` gives when the command line sets no flag;
`ca` is the constant `autotls.LetsEncryptProductionURL`. -/
def initFlags (ca : String) : Config :=
  { Config.zero with
    HTTPAddress := ":80", TLSAddress := ":443", Domain := "", Email := "",
    Accept := false, CAEndpoint := ca, StoragePath := "" }

/-- The hook `preRun` of `cmd/revendor/main.go`.  `getenv` is `os.Getenv` and `u`
the string form of the UUID that `uuid.NewV4()` would give. -/
def preRun (repo : String) (opts : Config) (getenv : String → String) (u : String) :
    PreRunResult :=
  if repo = "" then
    { err := some "must provide repo", opts := opts, verboseLogging := false }
  else
    let token := getenv ghtokName
    if token = "" then
      { err := some ("GitHub API token missing - must set " ++ ghtokName),
        opts := opts, verboseLogging := false }
    else
      let parts := Strings.SplitN repo '/' 2
      match parts with
      | [owner, name] =>
        { err := none,
          opts := { opts with
            EnableTLS := true,
            Owner := owner,
            Repo := name,
            CallbackURL := "https://" ++ opts.Domain ++ "/revendor-cb/" ++ u,
            GitHubToken := token,
            Events := ["push"],
            HookSecret := "jellyfish" },
          verboseLogging := false }
      | _ =>
        { err := some ("invalid repo " ++ repo ++ " - need 'owner/repo' form"),
          opts := opts, verboseLogging := false }

end Revendor

/-! ## Running the command

Everything a command does to the outside world is recorded, in order, as a list
of effects.  A log line is recorded by its message; its structured fields and
formatted values are left out. -/

/-- The hook action a command hands to `responder.Start`. -/
inductive HookAction where
  | execArgs (args : List String)
  | defaultAction
  | revendor
  deriving DecidableEq, Repr

/-- The subprocess built by `exec.Command(name, cmdArgs...)` with its standard input. -/
structure Cmd where
  name : String
  args : List String
  stdin : List Nat
  deriving DecidableEq, Repr

/-- One observable step of a command. -/
inductive Effect where
  | log (msg : String)
  | print (text : String)
  | start (opts : Config) (action : HookAction)
  | cleanup
  | run (c : Cmd)
  deriving DecidableEq, Repr

/-- What ends the wait of a running command: an interrupt signal taken from the
channel, or the context being done with the error `ctx.Err()` reports. -/
inductive Wake where
  | signal (s : String)
  | done (err : String)
  deriving DecidableEq, Repr

/-- The error a function returns (`none` for `nil`) and the effects up to its return. -/
structure RunResult where
  err : Option String
  effects : List Effect
  deriving DecidableEq, Repr

/-- The `select` that both commands block on (inlined in github-responder's `RunE`,
the function `handleInterrupt` in revendor). -/
def handleInterrupt (wake : Wake) : RunResult :=
  match wake with
  | .signal s =>
    { err := none, effects := [.log ("received " ++ s ++ ", shutting down gracefully...")] }
  | .done e =>
    { err := some e, effects := [.log "context cancelled"] }

/-- How the command framework sequences a command: the pre-run hook first, and the
run function only when the hook returned no error. -/
def Execute (pre : PreRunResult) (runE : Config → RunResult) : RunResult :=
  match pre.err with
  | some e => { err := some e, effects := [] }
  | none => runE pre.opts

namespace GithubResponder

/-- The function `printVersion`; `version` is the constant `version.Version`. -/
def printVersion (name version : String) : List Effect :=
  [.print (name ++ " version " ++ version ++ "\n")]

/-- The name of the command (`cmd.Name()`, the first word of `Use`). -/
def cmdName : String := "github-responder"

/-- The choice of action in `RunE`, with the log line of the default branch. -/
def chooseAction (args : List String) : HookAction × List Effect :=
  if args.length > 0 then (.execArgs args, [])
  else (.defaultAction, [.log "No action command given, will perform default"])

/-- The run function `RunE` of github-responder.  `startErr` is the error that
`responder.Start` returns (`none` when it returns a cleanup handle and no error),
`wake` what ends the wait.  The deferred `cleanup()` runs after the return value
is fixed and before the function returns. -/
def runE (version : String) (printVer : Bool) (args : List String) (opts : Config)
    (startErr : Option String) (wake : Wake) : RunResult :=
  if printVer then
    { err := none, effects := printVersion cmdName version }
  else
    let (action, chosen) := chooseAction args
    let pre : List Effect :=
      [.log "github-responder"] ++ chosen ++
        [.log "Starting responder with options", .start opts action]
    match startErr with
    | some e => { err := some e, effects := pre }
    | none =>
      let w := handleInterrupt wake
      { err := w.err,
        effects := pre ++ [.log "Responder started..."] ++ w.effects ++ [.cleanup] }

/-- The whole command: `preRun`, then `RunE` on the options it left. -/
def command (version : String) (printVer verbose : Bool) (repo : String) (opts : Config)
    (args : List String) (getenv : String → String) (u : String) (r : Nat)
    (startErr : Option String) (wake : Wake) : RunResult :=
  Execute (preRun verbose repo opts getenv u r)
    (fun o => runE version printVer args o startErr wake)

/-- The action returned by `execArgs(args...)`, called with an event.  `runErr` is
the error of `c.Run()`.  The result is the list of effects, or the runtime panic of
indexing an empty `args`. -/
def execArgs (args : List String) (eventType deliveryID : String) (payload : List Nat)
    (runErr : Option String) : Except String (List Effect) :=
  match args with
  | [] => .error "index out of range [0] with length 0"
  | name :: rest =>
    let cmdArgs := rest
    let cmdArgs := cmdArgs ++ [eventType, deliveryID]
    let c : Cmd := { name := name, args := cmdArgs, stdin := payload }
    let after : List Effect :=
      match runErr with
      | some e => [.log e]
      | none => []
    .ok ([.log "Received event, executing command", .run c] ++ after)

end GithubResponder

namespace Revendor

/-- The run function `RunE` of revendor. -/
def runE (opts : Config) (startErr : Option String) (wake : Wake) : RunResult :=
  let pre : List Effect := [.log "Starting responder with options", .start opts .revendor]
  match startErr with
  | some e => { err := some e, effects := pre }
  | none =>
    let w := handleInterrupt wake
    { err := w.err,
      effects := pre ++ [.log "Responder started..."] ++ w.effects ++ [.cleanup] }

/-- The whole command: `preRun`, then `RunE` on the options it left. -/
def command (repo : String) (opts : Config) (getenv : String → String) (u : String)
    (startErr : Option String) (wake : Wake) : RunResult :=
  Execute (preRun repo opts getenv u) (fun o => runE o startErr wake)

/-- The fields of `github.PushEventCommit` that the action reads. -/
structure PushEventCommit where
  Added : List String
  Removed : List String
  Modified : List String
  deriving DecidableEq, Repr

/-- The fields of `github.PushEvent` that the action reads; `Ref` is a pointer,
`none` when the payload carried no `ref`. -/
structure PushEvent where
  Ref : Option String
  Commits : List PushEventCommit
  deriving DecidableEq, Repr

/-- The dynamic type of the value `github.ParseWebHook` returns. -/
inductive WebHookEvent where
  | push (e : PushEvent)
  | other (kind : String)
  deriving DecidableEq, Repr

/-- The pair `(event, err)` that `github.ParseWebHook` returns: `event = none` is the
nil interface, `err = none` the nil error. -/
structure Parsed where
  event : Option WebHookEvent
  err : Option String
  deriving DecidableEq, Repr

/-- The local state of the scan: the log so far and the variable `push`. -/
structure Scan where
  log : List String
  push : Option PushEvent
  deriving DecidableEq, Repr

/-- One round of either inner loop of `revendor`, on the path `mod`. -/
def scanPath (event : PushEvent) (st : Scan) (mod : String) : Scan :=
  let st := { st with log := st.log ++ ["Modified"] }
  let fn := Strings.Base mod
  if fn = "go.mod" then
    { log := st.log ++ ["Will need to revendor!"], push := some event }
  else st

/-- One round of the outer loop: the modified paths of the commit, then the added ones. -/
def scanCommit (event : PushEvent) (st : Scan) (commit : PushEventCommit) : Scan :=
  let st := commit.Modified.foldl (scanPath event) st
  commit.Added.foldl (scanPath event) st

/-- What a call of the action leaves: the log, the final value of `push`, and the
runtime panic that ended the call, if any. -/
structure Outcome where
  log : List String
  push : Option PushEvent
  panic : Option String
  deriving DecidableEq, Repr

/-- The action `revendor` of `cmd/revendor/revendor.go`; `parse` is
`github.ParseWebHook`. -/
def revendor (parse : String → List Nat → Parsed) (eventType _deliveryID : String)
    (payload : List Nat) : Outcome :=
  let st : Scan := { log := ["Received Event"], push := none }
  let parsed := parse eventType payload
  let st :=
    match parsed.err with
    | some _ => { st with log := st.log ++ ["Failed to parse event"] }
    | none => st
  let st :=
    match parsed.event with
    | some (.push event) => event.Commits.foldl (scanCommit event) st
    | _ => { st with log := st.log ++ ["Ignoring event"] }
  match st.push with
  | some push =>
    match push.Ref with
    | some _ => { log := st.log ++ [""], push := st.push, panic := none }
    | none =>
      { log := st.log, push := st.push,
        panic := some "invalid memory address or nil pointer dereference" }
  | none => { log := st.log, push := st.push, panic := none }

/-- A commit touches `go.mod`: one of its modified or added paths has the base
name `go.mod`. -/
def touchesGoMod (commit : PushEventCommit) : Prop :=
  ∃ mod, (mod ∈ commit.Modified ∨ mod ∈ commit.Added) ∧ Strings.Base mod = "go.mod"

/-- A push event with one commit, which modifies the `go.mod` at the root of the
repository; `ref` is the `ref` field of the payload, if it has one. -/
def goModPush (ref : Option String) : PushEvent :=
  { Ref := ref, Commits := [{ Added := [], Removed := [], Modified := ["go.mod"] }] }

end Revendor

/-! ## Cutting a string at its first separator -/

namespace Strings

theorem Index_eq_none {c : Char} : ∀ {l : List Char}, Index l c = none ↔ c ∉ l
  | [] => by simp [Index]
  | x :: xs => by
    by_cases h : x = c
    · simp [Index, h]
    · have ih := Index_eq_none (c := c) (l := xs)
      simp [Index, h, ih, Ne.symm h]

theorem Index_eq_some {c : Char} : ∀ {l : List Char} {m : Nat}, Index l c = some m →
    l = l.take m ++ c :: l.drop (m + 1) ∧ c ∉ l.take m ∧ m < l.length
  | [], m, h => by simp [Index] at h
  | x :: xs, m, h => by
    by_cases hx : x = c
    · simp [Index, hx] at h
      subst h
      simp [hx]
    · simp only [Index, hx, if_false, Option.map_eq_some'] at h
      obtain ⟨k, hk, rfl⟩ := h
      obtain ⟨h1, h2, h3⟩ := Index_eq_some hk
      refine ⟨?_, ?_, ?_⟩
      · simpa using h1
      · simp [Ne.symm hx, h2]
      · simpa using h3

theorem SplitN_two (s : String) (sep : Char) :
    SplitN s sep 2 =
      match Index s.data sep with
      | none => [s]
      | some m => [String.mk (s.data.take m), String.mk (s.data.drop (m + 1))] := by
  simp only [SplitN, splitLoop]
  cases Index s.data sep <;> simp

theorem eq_empty_iff (s : String) : s = "" ↔ s.data = [] := by
  constructor
  · intro h; subst h; rfl
  · intro h; exact String.ext h

end Strings

/-! ## The three ways through `preRun` -/

namespace GithubResponder

theorem preRun_empty (verbose : Bool) (opts : Config) (getenv : String → String)
    (u : String) (r : Nat) :
    preRun verbose "" opts getenv u r =
      { err := some "must provide repo", opts := opts, verboseLogging := verbose } := by
  simp [preRun]

theorem preRun_no_slash (verbose : Bool) (repo : String) (opts : Config)
    (getenv : String → String) (u : String) (r : Nat) (h0 : repo ≠ "")
    (h : Strings.Index repo.data '/' = none) :
    preRun verbose repo opts getenv u r =
      { err := some ("invalid repo " ++ repo ++ " - need 'owner/repo' form"),
        opts := opts, verboseLogging := verbose } := by
  simp [preRun, h0, Strings.SplitN_two, h]

theorem preRun_slash (verbose : Bool) (repo : String) (opts : Config)
    (getenv : String → String) (u : String) (r : Nat) (m : Nat) (h0 : repo ≠ "")
    (h : Strings.Index repo.data '/' = some m) :
    preRun verbose repo opts getenv u r =
      let o := filled opts (String.mk (repo.data.take m)) (String.mk (repo.data.drop (m + 1))) u r
      if o.GitHubToken = "" then
        if getenv ghtokName = "" then
          { err := some ("GitHub API token missing - must set " ++ ghtokName),
            opts := o, verboseLogging := verbose }
        else
          { err := none, opts := { o with GitHubToken := getenv ghtokName },
            verboseLogging := verbose }
      else { err := none, opts := o, verboseLogging := verbose } := by
  simp only [preRun, h0, Strings.SplitN_two, h, filled, if_false]

theorem filled_fields (opts : Config) (owner name u : String) (r : Nat) :
    (filled opts owner name u r).Owner = owner ∧
    (filled opts owner name u r).Repo = name ∧
    (filled opts owner name u r).GitHubToken = opts.GitHubToken ∧
    (filled opts owner name u r).EnableTLS = opts.EnableTLS ∧
    (filled opts owner name u r).Domain = opts.Domain ∧
    (filled opts owner name u r).Accept = opts.Accept ∧
    (filled opts owner name u r).CallbackURL =
      (if opts.CallbackURL = "" then
        (if opts.EnableTLS then "https://" else "http://") ++ opts.Domain ++
          "/gh-callback/" ++ u
      else opts.CallbackURL) := by
  unfold filled
  by_cases h1 : opts.CallbackURL = "" <;> by_cases h2 : opts.HookSecret = "" <;>
    simp [h1, h2]

/-- A successful `preRun` found a first `/` in the repo and cut it there. -/
theorem preRun_ok (verbose : Bool) (repo : String) (opts : Config)
    (getenv : String → String) (u : String) (r : Nat)
    (h : (preRun verbose repo opts getenv u r).err = none) :
    ∃ m, repo ≠ "" ∧ Strings.Index repo.data '/' = some m ∧
      (preRun verbose repo opts getenv u r).opts.Owner = String.mk (repo.data.take m) ∧
      (preRun verbose repo opts getenv u r).opts.Repo = String.mk (repo.data.drop (m + 1)) := by
  by_cases h0 : repo = ""
  · subst h0; simp [preRun_empty] at h
  · cases hi : Strings.Index repo.data '/' with
    | none => simp [preRun_no_slash _ _ _ _ _ _ h0 hi] at h
    | some m =>
      refine ⟨m, h0, rfl, ?_⟩
      have hf := filled_fields opts (String.mk (repo.data.take m))
        (String.mk (repo.data.drop (m + 1))) u r
      rw [preRun_slash _ _ _ _ _ _ m h0 hi]
      dsimp only
      split_ifs <;> simp [hf.1, hf.2.1]

end GithubResponder

namespace Revendor

theorem preRun_rv_empty (opts : Config) (getenv : String → String) (u : String) :
    preRun "" opts getenv u =
      { err := some "must provide repo", opts := opts, verboseLogging := false } := by
  simp [preRun]

theorem preRun_rv_no_token (repo : String) (opts : Config) (getenv : String → String)
    (u : String) (h0 : repo ≠ "") (ht : getenv ghtokName = "") :
    preRun repo opts getenv u =
      { err := some ("GitHub API token missing - must set " ++ ghtokName),
        opts := opts, verboseLogging := false } := by
  simp [preRun, h0, ht]

theorem preRun_rv_no_slash (repo : String) (opts : Config) (getenv : String → String)
    (u : String) (h0 : repo ≠ "") (ht : getenv ghtokName ≠ "")
    (h : Strings.Index repo.data '/' = none) :
    preRun repo opts getenv u =
      { err := some ("invalid repo " ++ repo ++ " - need 'owner/repo' form"),
        opts := opts, verboseLogging := false } := by
  simp [preRun, h0, ht, Strings.SplitN_two, h]

theorem preRun_rv_slash (repo : String) (opts : Config) (getenv : String → String)
    (u : String) (m : Nat) (h0 : repo ≠ "") (ht : getenv ghtokName ≠ "")
    (h : Strings.Index repo.data '/' = some m) :
    preRun repo opts getenv u =
      { err := none,
        opts := { opts with
          EnableTLS := true,
          Owner := String.mk (repo.data.take m),
          Repo := String.mk (repo.data.drop (m + 1)),
          CallbackURL := "https://" ++ opts.Domain ++ "/revendor-cb/" ++ u,
          GitHubToken := getenv ghtokName,
          Events := ["push"],
          HookSecret := "jellyfish" },
        verboseLogging := false } := by
  simp [preRun, h0, ht, Strings.SplitN_two, h]

/-- A successful `preRun` found a token and a first `/` in the repo, and cut it there. -/
theorem preRun_rv_ok (repo : String) (opts : Config) (getenv : String → String) (u : String)
    (h : (preRun repo opts getenv u).err = none) :
    ∃ m, repo ≠ "" ∧ getenv ghtokName ≠ "" ∧ Strings.Index repo.data '/' = some m ∧
      (preRun repo opts getenv u).opts.Owner = String.mk (repo.data.take m) ∧
      (preRun repo opts getenv u).opts.Repo = String.mk (repo.data.drop (m + 1)) := by
  by_cases h0 : repo = ""
  · subst h0; simp [preRun_rv_empty] at h
  · by_cases ht : getenv ghtokName = ""
    · simp [preRun_rv_no_token _ _ _ _ h0 ht] at h
    · cases hi : Strings.Index repo.data '/' with
      | none => simp [preRun_rv_no_slash _ _ _ _ h0 ht hi] at h
      | some m =>
        refine ⟨m, h0, ht, rfl, ?_⟩
        simp [preRun_rv_slash _ _ _ _ m h0 ht hi]

end Revendor

namespace Strings

/-- The two pieces cut at the first separator: the first holds no separator, the
pieces put back around the separator give the string, and the second holds all the
other separators. -/
theorem cut_first (s : String) (m : Nat) (h : Index s.data '/' = some m) :
    '/' ∉ (String.mk (s.data.take m)).data ∧
    String.mk (s.data.take m) ++ "/" ++ String.mk (s.data.drop (m + 1)) = s ∧
    (String.mk (s.data.drop (m + 1))).data.count '/' + 1 = s.data.count '/' := by
  obtain ⟨h1, h2, _⟩ := Index_eq_some h
  refine ⟨h2, ?_, ?_⟩
  · apply String.ext
    simp only [String.data_append]
    conv_rhs => rw [h1]
    simp
  · conv_rhs => rw [h1]
    simp [List.count_append, List.count_eq_zero_of_not_mem h2]

end Strings

/-- Claim C9: whenever `preRun` succeeds (github-responder and revendor), the repo
was split at its first `/` only: `Owner` contains no `/`, `Owner ++ "/" ++ Repo` is
the repo string, and every other `/` of the repo string is inside `Repo`. -/
theorem C9_repo_split_at_first_slash :
    (∀ (verbose : Bool) (repo : String) (opts : Config) (getenv : String → String)
        (u : String) (r : Nat),
      (GithubResponder.preRun verbose repo opts getenv u r).err = none →
        '/' ∉ (GithubResponder.preRun verbose repo opts getenv u r).opts.Owner.data ∧
        (GithubResponder.preRun verbose repo opts getenv u r).opts.Owner ++ "/" ++
          (GithubResponder.preRun verbose repo opts getenv u r).opts.Repo = repo ∧
        (GithubResponder.preRun verbose repo opts getenv u r).opts.Repo.data.count '/' + 1 =
          repo.data.count '/') ∧
    (∀ (repo : String) (opts : Config) (getenv : String → String) (u : String),
      (Revendor.preRun repo opts getenv u).err = none →
        '/' ∉ (Revendor.preRun repo opts getenv u).opts.Owner.data ∧
        (Revendor.preRun repo opts getenv u).opts.Owner ++ "/" ++
          (Revendor.preRun repo opts getenv u).opts.Repo = repo ∧
        (Revendor.preRun repo opts getenv u).opts.Repo.data.count '/' + 1 =
          repo.data.count '/') := by
  constructor
  · intro verbose repo opts getenv u r h
    obtain ⟨m, _, hi, ho, hr⟩ := GithubResponder.preRun_ok verbose repo opts getenv u r h
    rw [ho, hr]
    exact Strings.cut_first repo m hi
  · intro repo opts getenv u h
    obtain ⟨m, _, _, hi, ho, hr⟩ := Revendor.preRun_rv_ok repo opts getenv u h
    rw [ho, hr]
    exact Strings.cut_first repo m hi

/-- Witness for C9: the repo `"acme/tools/widget"` with a token in the environment. -/
theorem C9_repo_split_at_first_slash_witness :
    (GithubResponder.preRun false "acme/tools/widget" Config.zero (fun _ => "tok") "u" 255).err
      = none ∧
    (GithubResponder.preRun false "acme/tools/widget" Config.zero (fun _ => "tok") "u"
      255).opts.Owner ++ "/" ++
      (GithubResponder.preRun false "acme/tools/widget" Config.zero (fun _ => "tok") "u"
        255).opts.Repo = "acme/tools/widget" ∧
    (Revendor.preRun "acme/tools/widget" Config.zero (fun _ => "tok") "u").err = none ∧
    (Revendor.preRun "acme/tools/widget" Config.zero (fun _ => "tok") "u").opts.Repo.data.count
      '/' + 1 = ("acme/tools/widget" : String).data.count '/' :=
  ⟨by decide,
   (C9_repo_split_at_first_slash.1 false "acme/tools/widget" Config.zero (fun _ => "tok") "u"
      255 (by decide)).2.1,
   by decide,
   (C9_repo_split_at_first_slash.2 "acme/tools/widget" Config.zero (fun _ => "tok") "u"
      (by decide)).2.2⟩

/-- Claim C4: github-responder's `preRun` returns an error exactly when the repo
is empty, or holds no `/`, or neither the configured token nor `GITHUB_TOKEN` is set;
otherwise the resulting token is non-empty: the configured one if set, else the
one of the environment. -/
theorem C4_preRun_error_iff (verbose : Bool) (repo : String) (opts : Config)
    (getenv : String → String) (u : String) (r : Nat) :
    ((GithubResponder.preRun verbose repo opts getenv u r).err ≠ none ↔
      (repo = "" ∨ '/' ∉ repo.data ∨
        (opts.GitHubToken = "" ∧ getenv "GITHUB_TOKEN" = ""))) ∧
    ((GithubResponder.preRun verbose repo opts getenv u r).err = none →
      (GithubResponder.preRun verbose repo opts getenv u r).opts.GitHubToken ≠ "" ∧
      (GithubResponder.preRun verbose repo opts getenv u r).opts.GitHubToken =
        if opts.GitHubToken ≠ "" then opts.GitHubToken else getenv "GITHUB_TOKEN") := by
  by_cases h0 : repo = ""
  · subst h0; simp [GithubResponder.preRun_empty]
  · cases hi : Strings.Index repo.data '/' with
    | none =>
      have hn := Strings.Index_eq_none.1 hi
      simp [GithubResponder.preRun_no_slash _ _ _ _ _ _ h0 hi, hn]
    | some m =>
      have hin : '/' ∈ repo.data := by
        by_contra hc
        rw [Strings.Index_eq_none.2 hc] at hi
        cases hi
      have hf := GithubResponder.filled_fields opts (String.mk (repo.data.take m))
        (String.mk (repo.data.drop (m + 1))) u r
      rw [GithubResponder.preRun_slash _ _ _ _ _ _ m h0 hi]
      simp only [hf.2.2.1, ghtokName]
      by_cases ht : opts.GitHubToken = ""
      · by_cases he : getenv "GITHUB_TOKEN" = ""
        · simp [ht, he, h0, hin]
        · simp [ht, he, h0, hin]
      · simp [ht, h0, hin, hf.2.2.1]

/-- Witness for C4: repo `"acme/widget"`, no configured token, `GITHUB_TOKEN=tok`. -/
theorem C4_preRun_error_iff_witness :
    (GithubResponder.preRun false "acme/widget" Config.zero (fun _ => "tok") "u" 255).err = none ∧
    (GithubResponder.preRun false "acme/widget" Config.zero (fun _ => "tok") "u"
      255).opts.GitHubToken ≠ "" :=
  ⟨by decide,
   ((C4_preRun_error_iff false "acme/widget" Config.zero (fun _ => "tok") "u" 255).2
      (by decide)).1⟩

namespace Strings

/-- When the string is cut at its first separator, the first piece is empty exactly
when the string begins with the separator, and the second exactly when that
separator is the last character. -/
theorem cut_empty (s : String) (m : Nat) (h : Index s.data '/' = some m) :
    (String.mk (s.data.take m) = "" ↔ s.data.head? = some '/') ∧
    (String.mk (s.data.drop (m + 1)) = "" ↔ m = s.data.length - 1) := by
  obtain ⟨h1, h2, h3⟩ := Index_eq_some h
  constructor
  · rw [eq_empty_iff]
    constructor
    · intro ht
      have ht : List.take m s.data = [] := ht
      rw [h1, ht]
      simp
    · intro hh
      cases hd : s.data with
      | nil => rw [hd] at hh; simp at hh
      | cons x xs =>
        rw [hd] at hh h
        simp only [List.head?_cons, Option.some.injEq] at hh
        simp [Index, hh] at h
        subst h
        simp
  · rw [eq_empty_iff]
    show List.drop (m + 1) s.data = [] ↔ _
    rw [List.drop_eq_nil_iff]
    omega

end Strings

/-- Counterexample to C2: with a token in the environment both hooks accept the
repo `"/widget"` and leave an empty `Owner`, and accept `"acme/"` and leave an
empty `Repo`. -/
theorem C2_counterexample :
    (GithubResponder.preRun false "/widget" Config.zero (fun _ => "tok") "u" 255).err = none ∧
    (GithubResponder.preRun false "/widget" Config.zero (fun _ => "tok") "u" 255).opts.Owner = "" ∧
    (Revendor.preRun "/widget" Config.zero (fun _ => "tok") "u").err = none ∧
    (Revendor.preRun "/widget" Config.zero (fun _ => "tok") "u").opts.Owner = "" ∧
    (GithubResponder.preRun false "acme/" Config.zero (fun _ => "tok") "u" 255).err = none ∧
    (GithubResponder.preRun false "acme/" Config.zero (fun _ => "tok") "u" 255).opts.Repo = "" ∧
    (Revendor.preRun "acme/" Config.zero (fun _ => "tok") "u").err = none ∧
    (Revendor.preRun "acme/" Config.zero (fun _ => "tok") "u").opts.Repo = "" := by
  decide

/-- Claim C2, amended: whenever `preRun` succeeds (github-responder and revendor),
`Owner` is non-empty unless the repo string begins with `/`, and `Repo` is
non-empty unless the first `/` of the repo string is its last character. -/
theorem C2_owner_repo_nonempty :
    (∀ (verbose : Bool) (repo : String) (opts : Config) (getenv : String → String)
        (u : String) (r : Nat),
      (GithubResponder.preRun verbose repo opts getenv u r).err = none →
        ((GithubResponder.preRun verbose repo opts getenv u r).opts.Owner ≠ "" ↔
          repo.data.head? ≠ some '/') ∧
        ((GithubResponder.preRun verbose repo opts getenv u r).opts.Repo ≠ "" ↔
          Strings.Index repo.data '/' ≠ some (repo.data.length - 1))) ∧
    (∀ (repo : String) (opts : Config) (getenv : String → String) (u : String),
      (Revendor.preRun repo opts getenv u).err = none →
        ((Revendor.preRun repo opts getenv u).opts.Owner ≠ "" ↔
          repo.data.head? ≠ some '/') ∧
        ((Revendor.preRun repo opts getenv u).opts.Repo ≠ "" ↔
          Strings.Index repo.data '/' ≠ some (repo.data.length - 1))) := by
  constructor
  · intro verbose repo opts getenv u r h
    obtain ⟨m, _, hi, ho, hr⟩ := GithubResponder.preRun_ok verbose repo opts getenv u r h
    obtain ⟨h1, h2⟩ := Strings.cut_empty repo m hi
    rw [ho, hr, hi]
    exact ⟨not_congr h1, by rw [Ne, Ne, Option.some.injEq]; exact not_congr h2⟩
  · intro repo opts getenv u h
    obtain ⟨m, _, _, hi, ho, hr⟩ := Revendor.preRun_rv_ok repo opts getenv u h
    obtain ⟨h1, h2⟩ := Strings.cut_empty repo m hi
    rw [ho, hr, hi]
    exact ⟨not_congr h1, by rw [Ne, Ne, Option.some.injEq]; exact not_congr h2⟩

/-- Witness for C2: the repo `"acme/widget"` with a token in the environment. -/
theorem C2_owner_repo_nonempty_witness :
    (GithubResponder.preRun false "acme/widget" Config.zero (fun _ => "tok") "u" 255).err = none ∧
    (GithubResponder.preRun false "acme/widget" Config.zero (fun _ => "tok") "u" 255).opts.Owner
      ≠ "" ∧
    (Revendor.preRun "acme/widget" Config.zero (fun _ => "tok") "u").err = none ∧
    (Revendor.preRun "acme/widget" Config.zero (fun _ => "tok") "u").opts.Repo ≠ "" :=
  ⟨by decide,
   ((C2_owner_repo_nonempty.1 false "acme/widget" Config.zero (fun _ => "tok") "u" 255
      (by decide)).1).2 (by decide),
   by decide,
   ((C2_owner_repo_nonempty.2 "acme/widget" Config.zero (fun _ => "tok") "u"
      (by decide)).2).2 (by decide)⟩

/-- Counterexample to C3: with the flag defaults, a repo and a token, both hooks
succeed and leave TLS enabled with an empty `Domain` and `Accept` false. -/
theorem C3_counterexample :
    (GithubResponder.preRun false "acme/widget" (GithubResponder.initFlags "ca")
      (fun _ => "tok") "u" 255).err = none ∧
    (GithubResponder.preRun false "acme/widget" (GithubResponder.initFlags "ca")
      (fun _ => "tok") "u" 255).opts.EnableTLS = true ∧
    (GithubResponder.preRun false "acme/widget" (GithubResponder.initFlags "ca")
      (fun _ => "tok") "u" 255).opts.Domain = "" ∧
    (GithubResponder.preRun false "acme/widget" (GithubResponder.initFlags "ca")
      (fun _ => "tok") "u" 255).opts.Accept = false ∧
    (Revendor.preRun "acme/widget" (Revendor.initFlags "ca") (fun _ => "tok") "u").err = none ∧
    (Revendor.preRun "acme/widget" (Revendor.initFlags "ca") (fun _ => "tok")
      "u").opts.EnableTLS = true ∧
    (Revendor.preRun "acme/widget" (Revendor.initFlags "ca") (fun _ => "tok")
      "u").opts.Domain = "" ∧
    (Revendor.preRun "acme/widget" (Revendor.initFlags "ca") (fun _ => "tok")
      "u").opts.Accept = false := by
  decide

/-- Claim C3, amended: whenever `preRun` succeeds, `Domain` and `Accept` are the
values the flags gave (github-responder keeps `EnableTLS` too, revendor sets it);
so a result with `EnableTLS` set has a non-empty `Domain` and a true `Accept`
exactly when the flags gave a non-empty domain and accepted the terms. -/
theorem C3_tls_fields_from_flags :
    (∀ (verbose : Bool) (repo : String) (opts : Config) (getenv : String → String)
        (u : String) (r : Nat),
      (GithubResponder.preRun verbose repo opts getenv u r).err = none →
        (GithubResponder.preRun verbose repo opts getenv u r).opts.EnableTLS = opts.EnableTLS ∧
        (GithubResponder.preRun verbose repo opts getenv u r).opts.Domain = opts.Domain ∧
        (GithubResponder.preRun verbose repo opts getenv u r).opts.Accept = opts.Accept ∧
        ((GithubResponder.preRun verbose repo opts getenv u r).opts.EnableTLS = true →
          (((GithubResponder.preRun verbose repo opts getenv u r).opts.Domain ≠ "" ∧
            (GithubResponder.preRun verbose repo opts getenv u r).opts.Accept = true) ↔
            (opts.Domain ≠ "" ∧ opts.Accept = true)))) ∧
    (∀ (repo : String) (opts : Config) (getenv : String → String) (u : String),
      (Revendor.preRun repo opts getenv u).err = none →
        (Revendor.preRun repo opts getenv u).opts.EnableTLS = true ∧
        (Revendor.preRun repo opts getenv u).opts.Domain = opts.Domain ∧
        (Revendor.preRun repo opts getenv u).opts.Accept = opts.Accept ∧
        (((Revendor.preRun repo opts getenv u).opts.Domain ≠ "" ∧
          (Revendor.preRun repo opts getenv u).opts.Accept = true) ↔
          (opts.Domain ≠ "" ∧ opts.Accept = true))) := by
  constructor
  · intro verbose repo opts getenv u r h
    obtain ⟨m, h0, hi, _, _⟩ := GithubResponder.preRun_ok verbose repo opts getenv u r h
    have hf := GithubResponder.filled_fields opts (String.mk (repo.data.take m))
      (String.mk (repo.data.drop (m + 1))) u r
    have key : (GithubResponder.preRun verbose repo opts getenv u r).opts.EnableTLS
          = opts.EnableTLS ∧
        (GithubResponder.preRun verbose repo opts getenv u r).opts.Domain = opts.Domain ∧
        (GithubResponder.preRun verbose repo opts getenv u r).opts.Accept = opts.Accept := by
      rw [GithubResponder.preRun_slash _ _ _ _ _ _ m h0 hi]
      dsimp only
      split_ifs <;> exact ⟨hf.2.2.2.1, hf.2.2.2.2.1, hf.2.2.2.2.2.1⟩
    refine ⟨key.1, key.2.1, key.2.2, ?_⟩
    intro _
    rw [key.2.1, key.2.2]
  · intro repo opts getenv u h
    obtain ⟨m, h0, ht, hi, _, _⟩ := Revendor.preRun_rv_ok repo opts getenv u h
    rw [Revendor.preRun_rv_slash _ _ _ _ m h0 ht hi]
    simp

/-- Witness for C3: domain `example.com` with the terms accepted. -/
theorem C3_tls_fields_from_flags_witness :
    (GithubResponder.preRun false "acme/widget"
      { GithubResponder.initFlags "ca" with Domain := "example.com", Accept := true }
      (fun _ => "tok") "u" 255).err = none ∧
    (GithubResponder.preRun false "acme/widget"
      { GithubResponder.initFlags "ca" with Domain := "example.com", Accept := true }
      (fun _ => "tok") "u" 255).opts.Domain = "example.com" ∧
    (Revendor.preRun "acme/widget"
      { Revendor.initFlags "ca" with Domain := "example.com", Accept := true }
      (fun _ => "tok") "u").err = none ∧
    (Revendor.preRun "acme/widget"
      { Revendor.initFlags "ca" with Domain := "example.com", Accept := true }
      (fun _ => "tok") "u").opts.EnableTLS = true :=
  ⟨by decide,
   (C3_tls_fields_from_flags.1 false "acme/widget"
      { GithubResponder.initFlags "ca" with Domain := "example.com", Accept := true }
      (fun _ => "tok") "u" 255 (by decide)).2.1,
   by decide,
   (C3_tls_fields_from_flags.2 "acme/widget"
      { Revendor.initFlags "ca" with Domain := "example.com", Accept := true }
      (fun _ => "tok") "u" (by decide)).1⟩

/-- Claim C5: after a successful github-responder `preRun`, a non-empty callback
value is left as supplied, and an empty one is replaced by
`scheme ++ Domain ++ "/gh-callback/" ++ u` with `u` the generated UUID and the scheme
`"https://"` when `EnableTLS` is set, `"http://"` otherwise. -/
theorem C5_callback_url (verbose : Bool) (repo : String) (opts : Config)
    (getenv : String → String) (u : String) (r : Nat)
    (h : (GithubResponder.preRun verbose repo opts getenv u r).err = none) :
    (opts.CallbackURL ≠ "" →
      (GithubResponder.preRun verbose repo opts getenv u r).opts.CallbackURL =
        opts.CallbackURL) ∧
    (opts.CallbackURL = "" →
      (GithubResponder.preRun verbose repo opts getenv u r).opts.CallbackURL =
        (if (GithubResponder.preRun verbose repo opts getenv u r).opts.EnableTLS
          then "https://" else "http://") ++
          (GithubResponder.preRun verbose repo opts getenv u r).opts.Domain ++
          "/gh-callback/" ++ u) := by
  obtain ⟨m, h0, hi, _, _⟩ := GithubResponder.preRun_ok verbose repo opts getenv u r h
  have hf := GithubResponder.filled_fields opts (String.mk (repo.data.take m))
    (String.mk (repo.data.drop (m + 1))) u r
  have key : (GithubResponder.preRun verbose repo opts getenv u r).opts.EnableTLS
        = opts.EnableTLS ∧
      (GithubResponder.preRun verbose repo opts getenv u r).opts.Domain = opts.Domain ∧
      (GithubResponder.preRun verbose repo opts getenv u r).opts.CallbackURL =
        (if opts.CallbackURL = "" then
          (if opts.EnableTLS then "https://" else "http://") ++ opts.Domain ++
            "/gh-callback/" ++ u
        else opts.CallbackURL) := by
    rw [GithubResponder.preRun_slash _ _ _ _ _ _ m h0 hi]
    dsimp only
    split_ifs <;> simp_all
  rw [key.1, key.2.1, key.2.2]
  constructor
  · intro hc; simp [hc]
  · intro hc; simp [hc]

/-- Witness for C5: no callback given, TLS on, domain `example.com`. -/
theorem C5_callback_url_witness :
    (GithubResponder.preRun false "acme/widget"
      { GithubResponder.initFlags "ca" with Domain := "example.com" }
      (fun _ => "tok") "1b4e28ba" 255).opts.CallbackURL =
      "https://example.com/gh-callback/1b4e28ba" :=
  (C5_callback_url false "acme/widget"
    { GithubResponder.initFlags "ca" with Domain := "example.com" }
    (fun _ => "tok") "1b4e28ba" 255 (by decide)).2 (by decide)

/-! ## The run functions -/

theorem handleInterrupt_no_cleanup (wake : Wake) :
    Effect.cleanup ∉ (handleInterrupt wake).effects := by
  cases wake <;> simp [handleInterrupt]

theorem handleInterrupt_count (wake : Wake) :
    (handleInterrupt wake).effects.count Effect.cleanup = 0 :=
  List.count_eq_zero_of_not_mem (handleInterrupt_no_cleanup wake)

theorem chooseAction_no_cleanup (args : List String) :
    Effect.cleanup ∉ (GithubResponder.chooseAction args).2 := by
  unfold GithubResponder.chooseAction
  split_ifs <;> simp

/-- Claim C1: in the run function of both commands, with `responder.Start` called
and its outcome arbitrary: if `Start` returns an error, the run function returns
that error and never invokes the cleanup handle; if `Start` succeeds, the cleanup
handle is invoked exactly once, as the last step before the run function returns,
whether the wait ends by an interrupt signal or by the context being done. -/
theorem C1_cleanup_on_every_exit :
    (∀ (version : String) (args : List String) (opts : Config) (e : String) (wake : Wake),
      (GithubResponder.runE version false args opts (some e) wake).err = some e ∧
      Effect.cleanup ∉ (GithubResponder.runE version false args opts (some e) wake).effects) ∧
    (∀ (version : String) (args : List String) (opts : Config) (wake : Wake),
      (GithubResponder.runE version false args opts none wake).effects.count Effect.cleanup = 1 ∧
      (GithubResponder.runE version false args opts none wake).effects.getLast? =
        some Effect.cleanup ∧
      (GithubResponder.runE version false args opts none wake).err =
        (handleInterrupt wake).err) ∧
    (∀ (opts : Config) (e : String) (wake : Wake),
      (Revendor.runE opts (some e) wake).err = some e ∧
      Effect.cleanup ∉ (Revendor.runE opts (some e) wake).effects) ∧
    (∀ (opts : Config) (wake : Wake),
      (Revendor.runE opts none wake).effects.count Effect.cleanup = 1 ∧
      (Revendor.runE opts none wake).effects.getLast? = some Effect.cleanup ∧
      (Revendor.runE opts none wake).err = (handleInterrupt wake).err) := by
  refine ⟨?_, ?_, ?_, ?_⟩
  · intro version args opts e wake
    have hc := chooseAction_no_cleanup args
    simp [GithubResponder.runE, hc]
  · intro version args opts wake
    have hc := List.count_eq_zero_of_not_mem (chooseAction_no_cleanup args)
    have hw := handleInterrupt_count wake
    have hl : ∃ xs, (GithubResponder.runE version false args opts none wake).effects =
        xs ++ [Effect.cleanup] := ⟨_, rfl⟩
    obtain ⟨xs, hxs⟩ := hl
    refine ⟨?_, by rw [hxs, List.getLast?_concat], ?_⟩
    · simp [GithubResponder.runE, List.count_append, List.count_cons, hc, hw]
    · simp [GithubResponder.runE]
  · intro opts e wake
    simp [Revendor.runE]
  · intro opts wake
    have hw := handleInterrupt_count wake
    have hl : ∃ xs, (Revendor.runE opts none wake).effects = xs ++ [Effect.cleanup] :=
      ⟨_, rfl⟩
    obtain ⟨xs, hxs⟩ := hl
    refine ⟨?_, by rw [hxs, List.getLast?_concat], ?_⟩
    · simp [Revendor.runE, List.count_append, List.count_cons, hw]
    · simp [Revendor.runE]

/-- Claim C6: for a non-empty `args`, the action of `execArgs(args...)` runs the
program `args[0]` with the arguments `args[1:]` followed by `eventType` and then
`deliveryID`, with the payload as standard input, and runs nothing else; and the
run function hands `execArgs(args...)` to `Start` only for a non-empty `args`. -/
theorem C6_execArgs_command (args : List String) (eventType deliveryID : String)
    (payload : List Nat) (runErr : Option String) (h : args ≠ []) :
    GithubResponder.execArgs args eventType deliveryID payload runErr =
      Except.ok
        ([Effect.log "Received event, executing command",
          Effect.run { name := args.head h,
                       args := args.tail ++ [eventType, deliveryID],
                       stdin := payload }] ++
          (match runErr with
           | some e => [Effect.log e]
           | none => [])) ∧
    (∀ (version : String) (printVer : Bool) (cmdline : List String) (opts o : Config)
        (startErr : Option String) (wake : Wake) (a : List String),
      Effect.start o (HookAction.execArgs a) ∈
          (GithubResponder.runE version printVer cmdline opts startErr wake).effects →
        a = cmdline ∧ a ≠ []) := by
  constructor
  · cases args with
    | nil => exact absurd rfl h
    | cons name rest => rfl
  · intro version printVer cmdline opts o startErr wake a hmem
    cases cmdline with
    | nil =>
      cases printVer <;> cases startErr <;> cases wake <;>
        simp [GithubResponder.runE, GithubResponder.chooseAction,
          GithubResponder.printVersion, handleInterrupt] at hmem
    | cons x xs =>
      cases printVer <;> cases startErr <;> cases wake <;>
        simp [GithubResponder.runE, GithubResponder.chooseAction,
          GithubResponder.printVersion, handleInterrupt] at hmem <;>
        simp [hmem]

/-- Witness for C6: `./handle_event.sh -x` on a push delivery. -/
theorem C6_execArgs_command_witness :
    GithubResponder.execArgs ["./handle_event.sh", "-x"] "push" "d1" [123, 125] none =
      Except.ok
        [Effect.log "Received event, executing command",
         Effect.run { name := "./handle_event.sh", args := ["-x", "push", "d1"],
                      stdin := [123, 125] }] :=
  (C6_execArgs_command ["./handle_event.sh", "-x"] "push" "d1" [123, 125] none
    (by decide)).1

/-- Claim C8 fails on the code: with `--version` set and no `--repo`, the command
stops in `preRun` with the error `must provide repo` and prints nothing; with a
repo but no token anywhere it stops with the missing-token error, again without
printing. -/
theorem C8_version_stopped_by_preRun :
    (∀ (version : String) (verbose : Bool) (opts : Config) (args : List String)
        (getenv : String → String) (u : String) (r : Nat) (startErr : Option String)
        (wake : Wake),
      GithubResponder.command version true verbose "" opts args getenv u r startErr wake =
        { err := some "must provide repo", effects := [] }) ∧
    (∀ (version : String) (verbose : Bool) (args : List String) (u : String) (r : Nat)
        (startErr : Option String) (wake : Wake),
      GithubResponder.command version true verbose "acme/widget"
          (GithubResponder.initFlags "ca") args (fun _ => "") u r startErr wake =
        { err := some "GitHub API token missing - must set GITHUB_TOKEN", effects := [] }) := by
  constructor
  · intro version verbose opts args getenv u r startErr wake
    simp [GithubResponder.command, GithubResponder.preRun_empty, Execute]
  · intro version verbose args u r startErr wake
    have h0 : ("acme/widget" : String) ≠ "" := by decide
    have hi : Strings.Index ("acme/widget" : String).data '/' = some 4 := by decide
    rw [GithubResponder.command, GithubResponder.preRun_slash _ _ _ _ _ _ 4 h0 hi]
    have hf := GithubResponder.filled_fields (GithubResponder.initFlags "ca")
      (String.mk (("acme/widget" : String).data.take 4))
      (String.mk (("acme/widget" : String).data.drop (4 + 1))) u r
    have ht : (GithubResponder.initFlags "ca").GitHubToken = "" := rfl
    simp only [hf.2.2.1, ht, if_true, Execute]
    rfl

/-! ## The revendor action -/

namespace Revendor

theorem scanPath_push (event : PushEvent) (st : Scan) (mod : String) :
    (scanPath event st mod).push =
      if Strings.Base mod = "go.mod" then some event else st.push := by
  simp only [scanPath]
  split_ifs <;> rfl

theorem scanPaths_push (event : PushEvent) : ∀ (paths : List String) (st : Scan),
    ((paths.foldl (scanPath event) st).push = some event ∧
        ((∃ mod ∈ paths, Strings.Base mod = "go.mod") ∨ st.push = some event)) ∨
      ((paths.foldl (scanPath event) st).push = st.push ∧
        ¬ ∃ mod ∈ paths, Strings.Base mod = "go.mod")
  | [], st => by simp
  | p :: ps, st => by
    rw [List.foldl_cons]
    rcases scanPaths_push event ps (scanPath event st p) with ⟨h1, h2⟩ | ⟨h1, h2⟩
    · left
      refine ⟨h1, ?_⟩
      rcases h2 with ⟨mod, hm, hb⟩ | h2
      · exact Or.inl ⟨mod, List.mem_cons_of_mem _ hm, hb⟩
      · rw [scanPath_push] at h2
        by_cases hb : Strings.Base p = "go.mod"
        · exact Or.inl ⟨p, List.mem_cons_self _ _, hb⟩
        · rw [if_neg hb] at h2
          exact Or.inr h2
    · rw [scanPath_push] at h1
      by_cases hb : Strings.Base p = "go.mod"
      · left
        rw [if_pos hb] at h1
        exact ⟨h1, Or.inl ⟨p, List.mem_cons_self _ _, hb⟩⟩
      · right
        rw [if_neg hb] at h1
        refine ⟨h1, ?_⟩
        rintro ⟨mod, hm, hmb⟩
        rcases List.mem_cons.1 hm with rfl | hm
        · exact hb hmb
        · exact h2 ⟨mod, hm, hmb⟩

theorem scanCommit_push (event : PushEvent) (st : Scan) (commit : PushEventCommit) :
    ((scanCommit event st commit).push = some event ∧
        (touchesGoMod commit ∨ st.push = some event)) ∨
      ((scanCommit event st commit).push = st.push ∧ ¬ touchesGoMod commit) := by
  unfold scanCommit touchesGoMod
  rcases scanPaths_push event commit.Added (commit.Modified.foldl (scanPath event) st)
    with ⟨h1, h2⟩ | ⟨h1, h2⟩
  · left
    refine ⟨h1, ?_⟩
    rcases h2 with ⟨mod, hm, hb⟩ | h2
    · exact Or.inl ⟨mod, Or.inr hm, hb⟩
    · rcases scanPaths_push event commit.Modified st with ⟨_, h4⟩ | ⟨h3, _⟩
      · rcases h4 with ⟨mod, hm, hb⟩ | h4
        · exact Or.inl ⟨mod, Or.inl hm, hb⟩
        · exact Or.inr h4
      · rw [h3] at h2
        exact Or.inr h2
  · rcases scanPaths_push event commit.Modified st with ⟨h3, h4⟩ | ⟨h3, h4⟩
    · left
      rw [h3] at h1
      refine ⟨h1, ?_⟩
      rcases h4 with ⟨mod, hm, hb⟩ | h4
      · exact Or.inl ⟨mod, Or.inl hm, hb⟩
      · exact Or.inr h4
    · right
      refine ⟨h1.trans h3, ?_⟩
      rintro ⟨mod, hm | hm, hb⟩
      · exact h4 ⟨mod, hm, hb⟩
      · exact h2 ⟨mod, hm, hb⟩

theorem scanCommits_push (event : PushEvent) : ∀ (commits : List PushEventCommit) (st : Scan),
    ((commits.foldl (scanCommit event) st).push = some event ∧
        ((∃ c ∈ commits, touchesGoMod c) ∨ st.push = some event)) ∨
      ((commits.foldl (scanCommit event) st).push = st.push ∧
        ¬ ∃ c ∈ commits, touchesGoMod c)
  | [], st => by simp
  | c :: cs, st => by
    rw [List.foldl_cons]
    rcases scanCommits_push event cs (scanCommit event st c) with ⟨h1, h2⟩ | ⟨h1, h2⟩
    · left
      refine ⟨h1, ?_⟩
      rcases h2 with ⟨c', hc, ht⟩ | h2
      · exact Or.inl ⟨c', List.mem_cons_of_mem _ hc, ht⟩
      · rcases scanCommit_push event st c with ⟨_, h4⟩ | ⟨h3, _⟩
        · rcases h4 with h4 | h4
          · exact Or.inl ⟨c, List.mem_cons_self _ _, h4⟩
          · exact Or.inr h4
        · rw [h3] at h2
          exact Or.inr h2
    · rcases scanCommit_push event st c with ⟨h3, h4⟩ | ⟨h3, h4⟩
      · left
        rw [h3] at h1
        refine ⟨h1, ?_⟩
        rcases h4 with h4 | h4
        · exact Or.inl ⟨c, List.mem_cons_self _ _, h4⟩
        · exact Or.inr h4
      · right
        refine ⟨h1.trans h3, ?_⟩
        rintro ⟨c', hc, ht⟩
        rcases List.mem_cons.1 hc with rfl | hc
        · exact h4 ht
        · exact h2 ⟨c', hc, ht⟩

/-- The value `revendor` computes from the pair the parser returned. -/
theorem revendor_push_of_parsed (parse : String → List Nat → Parsed)
    (eventType deliveryID : String) (payload : List Nat) :
    ∃ log, (revendor parse eventType deliveryID payload).push =
      match (parse eventType payload).event with
      | some (.push event) =>
        (event.Commits.foldl (scanCommit event) { log := log, push := none }).push
      | _ => none := by
  simp only [revendor]
  generalize parse eventType payload = parsed
  obtain ⟨ev, err⟩ := parsed
  cases ev with
  | none => cases err <;> exact ⟨[], rfl⟩
  | some ev =>
    cases ev with
    | other k => cases err <;> exact ⟨[], rfl⟩
    | push event =>
      cases err with
      | none =>
        refine ⟨["Received Event"], ?_⟩
        dsimp only
        split
        · rename_i p hp
          split <;> simp_all
        · simp_all
      | some e =>
        refine ⟨["Received Event"] ++ ["Failed to parse event"], ?_⟩
        dsimp only
        split
        · rename_i p hp
          split <;> simp_all
        · simp_all

end Revendor

/-- Counterexample to C7: the parser reports an error and also returns the push
event it decoded so far (a payload whose `ref` is a number instead of a string);
the action logs the error, scans the event all the same and marks the revendor. -/
theorem C7_counterexample :
    ((fun (_ : String) (_ : List Nat) =>
        ({ event := some (.push (Revendor.goModPush (some ""))),
           err := some "json: cannot unmarshal number into Go struct field PushEvent.ref" }
          : Revendor.Parsed)) "push" []).err ≠ none ∧
    (Revendor.revendor
      (fun _ _ =>
        { event := some (.push (Revendor.goModPush (some ""))),
          err := some "json: cannot unmarshal number into Go struct field PushEvent.ref" })
      "push" "d1" []).push = some (Revendor.goModPush (some "")) := by
  decide

/-- Claim C7, amended: when the parser returns a push event, with or without a
parse error, the action marks the push exactly when some commit lists, among its
modified or added paths, one whose base name is `go.mod`; when the parser returns
anything else, the nil event of a failed parse included, it never marks. -/
theorem C7_marks_iff_go_mod (parse : String → List Nat → Revendor.Parsed)
    (eventType deliveryID : String) (payload : List Nat) :
    (∀ event, (parse eventType payload).event = some (.push event) →
      ((Revendor.revendor parse eventType deliveryID payload).push ≠ none ↔
        ∃ commit ∈ event.Commits, ∃ mod,
          (mod ∈ commit.Modified ∨ mod ∈ commit.Added) ∧ Strings.Base mod = "go.mod") ∧
      ((Revendor.revendor parse eventType deliveryID payload).push ≠ none →
        (Revendor.revendor parse eventType deliveryID payload).push = some event)) ∧
    ((∀ event, (parse eventType payload).event ≠ some (.push event)) →
      (Revendor.revendor parse eventType deliveryID payload).push = none) := by
  obtain ⟨log, hlog⟩ := Revendor.revendor_push_of_parsed parse eventType deliveryID payload
  constructor
  · intro event he
    rw [he] at hlog
    dsimp only at hlog
    rw [hlog]
    rcases Revendor.scanCommits_push event event.Commits { log := log, push := none }
      with ⟨h1, h2⟩ | ⟨h1, h2⟩
    · rcases h2 with h2 | h2
      · rw [h1]
        exact ⟨⟨fun _ => h2, fun _ => by simp⟩, fun _ => rfl⟩
      · cases h2
    · rw [h1]
      exact ⟨⟨fun h => absurd rfl h, fun h => absurd h h2⟩, fun h => absurd rfl h⟩
  · intro hne
    rw [hlog]
    cases hev : (parse eventType payload).event with
    | none => rfl
    | some ev =>
      cases ev with
      | other k => rfl
      | push event => exact absurd hev (hne event)

/-- Witness for C7: a well-formed push whose commit modifies `go.mod`. -/
theorem C7_marks_iff_go_mod_witness :
    (Revendor.revendor
      (fun _ _ => { event := some (.push (Revendor.goModPush (some "refs/heads/master"))),
                    err := none })
      "push" "d1" []).push ≠ none :=
  ((C7_marks_iff_go_mod
      (fun _ _ => { event := some (.push (Revendor.goModPush (some "refs/heads/master"))),
                    err := none })
      "push" "d1" []).1 (Revendor.goModPush (some "refs/heads/master")) rfl).1.2
    ⟨{ Added := [], Removed := [], Modified := ["go.mod"] }, by decide, "go.mod",
      by decide, by decide⟩

/-- Claim C10 fails on the code: a push event that touches `go.mod` and carries no
`ref` ends the action with a nil pointer dereference.  A nil event and a push
event without commits do let it run to completion. -/
theorem C10_nil_ref_panics :
    (Revendor.revendor
      (fun _ _ => { event := some (.push (Revendor.goModPush none)), err := none })
      "push" "d1" []).panic = some "invalid memory address or nil pointer dereference" ∧
    (∀ (eventType deliveryID : String) (payload : List Nat) (err : Option String),
      (Revendor.revendor (fun _ _ => { event := none, err := err })
        eventType deliveryID payload).panic = none) ∧
    (∀ (eventType deliveryID : String) (payload : List Nat) (ref err : Option String),
      (Revendor.revendor
        (fun _ _ => { event := some (.push { Ref := ref, Commits := [] }), err := err })
        eventType deliveryID payload).panic = none) := by
  refine ⟨by decide, ?_, ?_⟩
  · intro eventType deliveryID payload err
    cases err <;> rfl
  · intro eventType deliveryID payload ref err
    cases err <;> rfl
